import Mathlib

/-!
Verification development for the Express product-API server (src/server.js).

The server is embedded shallowly: request bodies, stored records and
responses become inductive data; each route handler becomes a pure Lean
function from its inputs and the current store to the new store and the
response; the central error middleware becomes a pure translator from a
fault value to a response. JavaScript numbers are modelled as rationals
(no floating point subtleties are exercised by the program on the inputs
considered), JavaScript truthiness and strict equality are modelled
explicitly, and the JavaScript value `undefined` is a distinguished
constructor used to mark absent body fields.
-/

/-- Model of a JavaScript value as far as this server manipulates them:
JSON-representable scalars plus the value `undefined` (an absent object
key reads as `undefined`). Objects and arrays never flow into the fields
this development reasons about. -/
inductive JVal where
  | str (s : String)
  | num (q : ℚ)
  | bool (b : Bool)
  | null
  | undef
deriving DecidableEq

/-- JavaScript truthiness for the modelled values: empty strings, zero,
`false`, `null` and `undefined` are falsy, everything else is truthy. -/
def JVal.truthy : JVal → Bool
  | .str s => s ≠ ""
  | .num q => q ≠ 0
  | .bool b => b
  | .null => false
  | .undef => false

/-- Mirrors the JavaScript test `typeof v === "number"`. -/
def JVal.isNum : JVal → Bool
  | .num _ => true
  | _ => false

/-- Mirrors the JavaScript test `typeof v === "string"`. -/
def JVal.isStr : JVal → Bool
  | .str _ => true
  | _ => false

/-- Mirrors the JavaScript comparison `v <= 0`; the server only evaluates
it after the `typeof === "number"` guard, so the non-number branches are
never consulted. -/
def JVal.le0 : JVal → Bool
  | .num q => decide (q ≤ 0)
  | _ => false

/-- A stored product record. The create and update handlers in the source
always assign all six keys, so the fields are structural here; the values
themselves may be any JavaScript value the server lets through. -/
structure Product where
  id : String
  name : JVal
  description : JVal
  price : JVal
  category : JVal
  inStock : JVal
deriving DecidableEq

/-- A parsed JSON request body as the handlers read it: each field is the
value of the corresponding key, with `undef` standing for an absent key
(JSON bodies cannot contain an explicit `undefined`). -/
structure Body where
  name : JVal := .undef
  description : JVal := .undef
  price : JVal := .undef
  category : JVal := .undef
  inStock : JVal := .undef
deriving DecidableEq

/-- ASCII lower-casing of one character, mirroring what
`String.prototype.toLowerCase` does on the ASCII inputs this development
evaluates (full Unicode case mapping is out of scope). -/
def lowerChar (c : Char) : Char :=
  if c.toNat ≥ 65 ∧ c.toNat ≤ 90 then Char.ofNat (c.toNat + 32) else c

/-- Lower-case a whole string, character by character. -/
def lowerStr (s : String) : String :=
  String.mk (s.data.map lowerChar)

/-- Does the character list `t` occur at the head of `s`? -/
def headMatches : List Char → List Char → Bool
  | _, [] => true
  | [], _ :: _ => false
  | a :: as, b :: bs => a == b && headMatches as bs

/-- Does the character list `t` occur contiguously anywhere inside `s`? -/
def containsL : List Char → List Char → Bool
  | [], t => t.isEmpty
  | a :: as, t => headMatches (a :: as) t || containsL as t

/-- Mirrors `String.prototype.includes`: substring containment, with the
empty string contained in everything. -/
def jsIncludes (s t : String) : Bool :=
  containsL s.data t.data

/-- A fault value as the central error middleware reads it: the `name`
property (`none` models a thrown value with no name property), the
`message` property, and the optional `statusCode` property that only the
three custom error classes set. -/
structure JsError where
  name : Option String
  message : String
  statusCode : Option Nat
deriving DecidableEq

/-- The `NotFoundError` class of the source: name and status 404. -/
def notFoundError (m : String) : JsError := ⟨some "NotFoundError", m, some 404⟩

/-- The `ValidationError` class of the source: name and status 400. -/
def validationError (m : String) : JsError := ⟨some "ValidationError", m, some 400⟩

/-- The `UnauthorizedError` class of the source: name and status 401. -/
def unauthorizedError (m : String) : JsError := ⟨some "UnauthorizedError", m, some 401⟩

/-- A runtime `TypeError`, as raised when `toLowerCase` is called on a
non-string value; it carries no `statusCode` property. -/
def typeError (m : String) : JsError := ⟨some "TypeError", m, none⟩

/-- Response bodies the routes can produce. -/
inductive RespBody where
  | text (s : String)
  | prod (p : Product)
  | listing (total : Nat) (page : Int) (totalPages : Int) (data : List Product)
  | stats (totalProducts : Nat) (categories : List (String × Nat))
      (inStock : Nat) (outOfStock : Nat)
  | err (message : String) (type_ : String)
  | empty
deriving DecidableEq

/-- An HTTP response: status code and JSON (or empty) body. -/
structure Resp where
  status : Nat
  body : RespBody
deriving DecidableEq

/-- The `err.name || "InternalServerError"` expression of the error
middleware: the name of the fault when it is a truthy string, the
default otherwise. -/
def errName (e : JsError) : String :=
  match e.name with
  | some n => if n = "" then "InternalServerError" else n
  | none => "InternalServerError"

/-- The central error-handling middleware (source lines 197 to 206):
status from `err.statusCode || 500`, body `{error: {message, type}}` with
the type from `err.name || "InternalServerError"`. -/
def errorHandler (e : JsError) : Resp :=
  ⟨e.statusCode.getD 500, .err e.message (errName e)⟩

/-- The request-time inputs of the authentication middleware: the
`x-api-key` header of the request and the `API_KEY` environment value
loaded at startup, each possibly absent. -/
structure Ctx where
  apiKey : Option String
  envKey : Option String

/-- The authentication middleware (source lines 42 to 48): passes exactly
when the header is present, truthy, and strictly equal to the configured
key; a missing configured key can never compare equal to a string. -/
def authenticate (c : Ctx) : Bool :=
  match c.apiKey with
  | none => false
  | some k =>
    if k = "" then false
    else match c.envKey with
      | some e => k == e
      | none => false

/-- The validation middleware `validateProduct` (source lines 76 to 85):
first `!name || !price`, then `typeof price !== "number" || price <= 0`,
each raising a ValidationError with the message of the source. Returns
the message of the raised error, or `none` when the body passes. -/
def validateProduct (b : Body) : Option String :=
  if !(b.name.truthy && b.price.truthy) then
    some "Name and price are required"
  else if !b.price.isNum || b.price.le0 then
    some "Price must be a positive number"
  else none

/-- The record built by the create handler (source lines 137 to 144):
fresh id, name and price copied, `description || ""`,
`category || "Uncategorized"`, and `inStock !== undefined ? inStock : true`. -/
def mkNew (fid : String) (b : Body) : Product :=
  { id := fid,
    name := b.name,
    description := if b.description.truthy then b.description else .str "",
    price := b.price,
    category := if b.category.truthy then b.category else .str "Uncategorized",
    inStock := if b.inStock = JVal.undef then .bool true else b.inStock }

/-- The record built by the update handler (source lines 157 to 164):
spread of the old record, then name and price overwritten,
`description || old.description`, `category || old.category`, and
`inStock !== undefined ? inStock : old.inStock`; the id comes from the
spread and is never overwritten. -/
def updateMerge (b : Body) (old : Product) : Product :=
  { id := old.id,
    name := b.name,
    description := if b.description.truthy then b.description else old.description,
    price := b.price,
    category := if b.category.truthy then b.category else old.category,
    inStock := if b.inStock = JVal.undef then old.inStock else b.inStock }

/-- Replace the first record whose id matches, returning the new store
and the new record; `none` when no id matches. This is the
`findIndex` plus replace-at-index step of the update handler. -/
def updateFirst (i : String) (b : Body) : List Product → Option (List Product × Product)
  | [] => none
  | p :: ps =>
    if p.id = i then some (updateMerge b p :: ps, updateMerge b p)
    else match updateFirst i b ps with
      | some (l, q) => some (p :: l, q)
      | none => none

/-- The first seed record (source lines 12 to 19). The price 999.99 is
the rational 99999/100, written in lowest terms so that it evaluates by
kernel reduction. -/
def seed1 : Product :=
  { id := "1",
    name := .str "Laptop",
    description := .str "High-performance laptop",
    price := .num (Rat.mk' 99999 100),
    category := .str "Electronics",
    inStock := .bool true }

/-- The second seed record (source lines 20 to 27), with price 199.99 =
19999/100. -/
def seed2 : Product :=
  { id := "2",
    name := .str "Desk Chair",
    description := .str "Ergonomic office chair",
    price := .num (Rat.mk' 19999 100),
    category := .str "Furniture",
    inStock := .bool true }

/-- The seed store `products` (source lines 11 to 28), the initial value
of the mutable store. -/
def products : List Product := [seed1, seed2]

/-- The `parseInt(x) || default` idiom of the pagination code: the parsed
value when it is a number other than 0, the default when parsing produced
`NaN` (modelled as `none`) or 0. -/
def jsOrInt (o : Option Int) (d : Int) : Int :=
  match o with
  | some v => if v = 0 then d else v
  | none => d

/-- Mirrors `Math.ceil(len / limit)` for a natural numerator and a
nonzero integer denominator (the pagination code can never reach a zero
limit, because `parseInt(...) || 10` never yields 0). -/
def jsCeilDiv (len : Nat) (limit : Int) : Int :=
  if 0 < limit then -((-(len : Int)) / limit) else -((len : Int) / (-limit))

/-- Mirrors `Array.prototype.slice(a, b)` with integer arguments:
negative indices count from the end, and both indices are clamped to the
array bounds. -/
def jsSlice {α : Type} (l : List α) (a b : Int) : List α :=
  let len : Int := l.length
  let s := if a < 0 then max (len + a) 0 else min a len
  let e := if b < 0 then max (len + b) 0 else min b len
  (l.take e.toNat).drop s.toNat

/-- One evaluation of the search predicate of the list handler (source
lines 104 to 107) on one record, with the already lower-cased search
term: `p.name.toLowerCase().includes(t) || p.description.toLowerCase().includes(t)`.
The disjunction short-circuits, and `toLowerCase` on a non-string value
raises a TypeError. -/
def searchMatch (t : String) (p : Product) : Except JsError Bool :=
  match p.name with
  | .str n =>
    if jsIncludes (lowerStr n) t then .ok true
    else match p.description with
      | .str d => .ok (jsIncludes (lowerStr d) t)
      | _ => .error (typeError "p.description.toLowerCase is not a function")
  | _ => .error (typeError "p.name.toLowerCase is not a function")

/-- `Array.prototype.filter` with the search predicate: evaluates the
predicate on each record in order, aborting at the first raised fault. -/
def filterSearch (t : String) : List Product → Except JsError (List Product)
  | [] => .ok []
  | p :: ps => do
    let b ← searchMatch t p
    let rest ← filterSearch t ps
    pure (if b then p :: rest else rest)

/-- The filtering portion of the list handler (source lines 94 to 108):
category filter when the `category` query value is truthy (strict
equality against the stored category value), then search filter when the
`search` query value is truthy (term lower-cased once). -/
def filterStep (cat search : Option String) (s : List Product) :
    Except JsError (List Product) :=
  let r1 := match cat with
    | some c => if c = "" then s else s.filter (fun p => p.category == JVal.str c)
    | none => s
  match search with
  | some t => if t = "" then .ok r1 else filterSearch (lowerStr t) r1
  | none => .ok r1

/-- The list handler `GET /api/products` (source lines 93 to 124). The
`page` and `limit` arguments are the `parseInt` results of the query
values, with `none` standing for `NaN`. A fault raised while filtering
propagates to the error middleware. -/
def listProducts (cat search : Option String) (pageQ limitQ : Option Int)
    (s : List Product) : Resp :=
  match filterStep cat search s with
  | .error e => errorHandler e
  | .ok r =>
    let page := jsOrInt pageQ 1
    let limit := jsOrInt limitQ 10
    ⟨200, .listing r.length page (jsCeilDiv r.length limit)
        (jsSlice r ((page - 1) * limit) (page * limit))⟩

/-- The single-record read handler `GET /api/products/:id` (source lines
127 to 133). -/
def getById (i : String) (s : List Product) : Resp :=
  match s.find? (fun p => p.id == i) with
  | some p => ⟨200, .prod p⟩
  | none => errorHandler (notFoundError "Product not found")

/-- Coercion of a stored category value to a JavaScript object key, as
`stats.categories[product.category]` performs. Non-integral numeric keys
would use the JavaScript decimal rendering, which is not modelled; no
statement in this development evaluates that branch. -/
def JVal.toKey : JVal → String
  | .str s => s
  | .num q => if q.den = 1 then toString q.num else toString q
  | .bool b => if b then "true" else "false"
  | .null => "null"
  | .undef => "undefined"

/-- Increment the count of `k` in an insertion-ordered association list,
appending a fresh entry with count 1 when `k` is not yet present; this is
`m[k] = (m[k] || 0) + 1` on a plain object. -/
def bump (m : List (String × Nat)) (k : String) : List (String × Nat) :=
  if m.any (fun kv => kv.1 == k) then
    m.map (fun kv => if kv.1 == k then (kv.1, kv.2 + 1) else kv)
  else m ++ [(k, 1)]

/-- The categories object of the stats handler: counts of records per
category key, keys in order of first occurrence. -/
def catCounts (s : List Product) : List (String × Nat) :=
  s.foldl (fun m p => bump m p.category.toKey) []

/-- The statistics handler `GET /api/products/stats` (source lines 181
to 194). -/
def getStats (s : List Product) : Resp :=
  ⟨200, .stats s.length (catCounts s)
      (s.filter (fun p => p.inStock.truthy)).length
      (s.filter (fun p => !p.inStock.truthy)).length⟩

/-- The create handler `POST /api/products` (source lines 136 to 148):
authentication, then validation, then append; `fid` is the freshly
generated uuid. Returns the new store and the response. -/
def postProduct (c : Ctx) (b : Body) (fid : String) (s : List Product) :
    List Product × Resp :=
  if authenticate c = false then
    (s, errorHandler (unauthorizedError "Invalid API key"))
  else match validateProduct b with
    | some m => (s, errorHandler (validationError m))
    | none => (s ++ [mkNew fid b], ⟨201, .prod (mkNew fid b)⟩)

/-- The update handler `PUT /api/products/:id` (source lines 151 to 167):
authentication, then validation, then replace-in-place of the first
record whose id matches. -/
def putProduct (c : Ctx) (i : String) (b : Body) (s : List Product) :
    List Product × Resp :=
  if authenticate c = false then
    (s, errorHandler (unauthorizedError "Invalid API key"))
  else match validateProduct b with
    | some m => (s, errorHandler (validationError m))
    | none => match updateFirst i b s with
      | none => (s, errorHandler (notFoundError "Product not found"))
      | some (l, q) => (l, ⟨200, .prod q⟩)

/-- The delete handler `DELETE /api/products/:id` (source lines 170 to
178): authentication, existence check by `findIndex`, then removal of
every record with that id by `filter`. -/
def deleteProduct (c : Ctx) (i : String) (s : List Product) :
    List Product × Resp :=
  if authenticate c = false then
    (s, errorHandler (unauthorizedError "Invalid API key"))
  else if (s.find? (fun p => p.id == i)).isSome = false then
    (s, errorHandler (notFoundError "Product not found"))
  else (s.filter (fun p => !(p.id == i)), ⟨204, .empty⟩)

/-- A path pattern segment of an Express route: a literal segment or a
parameter segment such as `:id`. -/
inductive Seg where
  | lit (s : String)
  | param
deriving DecidableEq

/-- Match a route pattern against a concrete path, returning the captured
parameter segments in order when the pattern matches. -/
def matchRoute : List Seg → List String → Option (List String)
  | [], [] => some []
  | .lit a :: ps, b :: bs => if a = b then matchRoute ps bs else none
  | .param :: ps, b :: bs => (matchRoute ps bs).map (fun caps => b :: caps)
  | _, _ => none

/-- The GET router: the four GET routes in source registration order
(lines 88, 93, 127 and 181: `/`, `/api/products`, `/api/products/:id`,
`/api/products/stats`); Express dispatches a request to the first
registered route whose pattern matches its path. -/
def dispatchGet (cat search : Option String) (pageQ limitQ : Option Int)
    (s : List Product) (path : List String) : Resp :=
  if (matchRoute [] path).isSome then ⟨200, .text "Hello World!"⟩
  else if (matchRoute [.lit "api", .lit "products"] path).isSome then
    listProducts cat search pageQ limitQ s
  else match matchRoute [.lit "api", .lit "products", .param] path with
    | some caps => getById (caps.headD "") s
    | none =>
      if (matchRoute [.lit "api", .lit "products", .lit "stats"] path).isSome then
        getStats s
      else ⟨404, .empty⟩

/-- A context in which authentication succeeds: header and configured key
both present and equal. -/
def ctxGood : Ctx := ⟨some "secret", some "secret"⟩

/-- A request body that passes validation while carrying a numeric (hence
truthy but non-string) `description` value. -/
def badBody : Body := { name := .str "Widget", price := .num 5, description := .num 123 }

/-- The record the create handler stores for `badBody`: its description
is the number 123. -/
def badProduct : Product := mkNew "b1" badBody

/-- The value the search predicate computes on a record whose name and
description are both strings (the only case in which it cannot raise). -/
def searchHit (t : String) (p : Product) : Bool :=
  match p.name, p.description with
  | .str n, .str d => jsIncludes (lowerStr n) t || jsIncludes (lowerStr d) t
  | _, _ => false

/-- A record has all five non-id fields populated: none of them is the
JavaScript value `undefined` (a key that was never assigned would read as
`undefined`). -/
def populated (p : Product) : Prop :=
  p.name ≠ JVal.undef ∧ p.description ≠ JVal.undef ∧ p.price ≠ JVal.undef
    ∧ p.category ≠ JVal.undef ∧ p.inStock ≠ JVal.undef

/-- The store invariant of the data model: ids pairwise distinct, every
stored price a strictly positive number, every record fully populated. -/
def StoreInv (s : List Product) : Prop :=
  (s.map Product.id).Nodup
  ∧ ∀ p ∈ s, (∃ q : ℚ, p.price = JVal.num q ∧ 0 < q) ∧ populated p

/-- The store states reachable from the seed store through any sequence
of create, update and delete requests, with arbitrary contexts and
bodies; a create carries the assumption that the freshly generated uuid
does not collide with an id already in the store. -/
inductive Reach : List Product → Prop where
  | seed : Reach products
  | create (c : Ctx) (b : Body) (fid : String) (s : List Product) :
      Reach s → (∀ p ∈ s, p.id ≠ fid) → Reach (postProduct c b fid s).1
  | update (c : Ctx) (i : String) (b : Body) (s : List Product) :
      Reach s → Reach (putProduct c i b s).1
  | remove (c : Ctx) (i : String) (s : List Product) :
      Reach s → Reach (deleteProduct c i s).1

lemma jsCeilDiv_eq_ceil (len : ℕ) (limit : ℤ) (h : 0 < limit) :
    jsCeilDiv len limit = ⌈(len : ℚ) / (limit : ℚ)⌉ := by
  unfold jsCeilDiv
  rw [if_pos h]
  have hd : ((limit.toNat : ℕ) : ℤ) = limit := Int.toNat_of_nonneg h.le
  have hdq : ((limit.toNat : ℕ) : ℚ) = (limit : ℚ) := by exact_mod_cast hd
  have hfl := Rat.floor_intCast_div_natCast (-(len : ℤ)) limit.toNat
  have hcast : ((-(len : ℤ) : ℤ) : ℚ) / ((limit.toNat : ℕ) : ℚ)
      = -((len : ℚ) / (limit : ℚ)) := by
    rw [hdq]; push_cast; ring
  rw [hcast, Int.floor_neg, hd] at hfl
  rw [← hfl]
  exact neg_neg _

lemma len_le_ceilDiv_mul (len : ℕ) (limit : ℤ) (h : 0 < limit) :
    (len : ℤ) ≤ jsCeilDiv len limit * limit := by
  rw [jsCeilDiv_eq_ceil len limit h]
  have hl : (0 : ℚ) < (limit : ℚ) := by exact_mod_cast h
  have h1 : (len : ℚ) / (limit : ℚ) ≤ (⌈(len : ℚ) / (limit : ℚ)⌉ : ℚ) := Int.le_ceil _
  rw [div_le_iff₀ hl] at h1
  exact_mod_cast h1

lemma jsSlice_eq_nil {α : Type} (l : List α) (a b : Int) (ha : (l.length : Int) ≤ a) :
    jsSlice l a b = [] := by
  have h0 : (0 : Int) ≤ (l.length : Int) := Int.ofNat_nonneg _
  have hna : ¬ a < 0 := by omega
  simp only [jsSlice]
  rw [if_neg hna, min_eq_right ha]
  apply List.drop_eq_nil_of_le
  simp [List.length_take]

lemma updateFirst_append (i : String) (b : Body) (pre : List Product) (old : Product)
    (post : List Product) (hpre : ∀ q ∈ pre, q.id ≠ i) (hold : old.id = i) :
    updateFirst i b (pre ++ old :: post)
      = some (pre ++ updateMerge b old :: post, updateMerge b old) := by
  induction pre with
  | nil => simp [updateFirst, hold]
  | cons p ps ih =>
    have hp : p.id ≠ i := hpre p (List.mem_cons_self p ps)
    have ih2 := ih (fun q hq => hpre q (List.mem_cons_of_mem p hq))
    simp [updateFirst, hp, ih2]

lemma isStr_exists {v : JVal} (h : v.isStr = true) : ∃ s, v = .str s := by
  cases v <;> first | exact ⟨_, rfl⟩ | simp [JVal.isStr] at h

lemma searchMatch_of_str {t : String} {p : Product} {n d : String}
    (hn : p.name = .str n) (hd : p.description = .str d) :
    searchMatch t p = .ok (searchHit t p) := by
  simp only [searchMatch, searchHit, hn, hd]
  by_cases h : jsIncludes (lowerStr n) t = true <;> simp [h]

lemma filterSearch_of_str (t : String) (s : List Product)
    (h : ∀ p ∈ s, p.name.isStr = true ∧ p.description.isStr = true) :
    filterSearch t s = .ok (s.filter (searchHit t)) := by
  induction s with
  | nil => rfl
  | cons p ps ih =>
    obtain ⟨hn, hd⟩ := h p (List.mem_cons_self p ps)
    obtain ⟨n, hn'⟩ := isStr_exists hn
    obtain ⟨d, hd'⟩ := isStr_exists hd
    have ihp := ih (fun q hq => h q (List.mem_cons_of_mem p hq))
    cases hh : searchHit t p <;>
      simp [filterSearch, searchMatch_of_str hn' hd', ihp, hh, List.filter_cons,
        Bind.bind, Except.bind, Pure.pure, Except.pure]

lemma mem_filter_searchHit {t : String} {s : List Product} {p : Product}
    (hstr : ∀ q ∈ s, q.name.isStr = true ∧ q.description.isStr = true) :
    p ∈ s.filter (searchHit t) ↔
      p ∈ s ∧ ∃ n d, p.name = .str n ∧ p.description = .str d
        ∧ (jsIncludes (lowerStr n) t = true ∨ jsIncludes (lowerStr d) t = true) := by
  rw [List.mem_filter]
  constructor
  · rintro ⟨hm, hh⟩
    obtain ⟨n, hn⟩ := isStr_exists (hstr p hm).1
    obtain ⟨d, hd⟩ := isStr_exists (hstr p hm).2
    refine ⟨hm, n, d, hn, hd, ?_⟩
    simpa [searchHit, hn, hd, Bool.or_eq_true] using hh
  · rintro ⟨hm, n, d, hn, hd, hor⟩
    refine ⟨hm, ?_⟩
    simp [searchHit, hn, hd, Bool.or_eq_true]
    tauto

lemma mem_filter_category {c : String} {s : List Product} {p : Product} :
    p ∈ s.filter (fun q => q.category == JVal.str c) ↔
      p ∈ s ∧ p.category = JVal.str c := by
  rw [List.mem_filter]
  simp

lemma truthy_ne_undef {v : JVal} (h : v.truthy = true) : v ≠ JVal.undef := by
  rintro rfl; simp [JVal.truthy] at h

lemma validateProduct_none {b : Body} (h : validateProduct b = none) :
    b.name.truthy = true ∧ ∃ q : ℚ, b.price = JVal.num q ∧ 0 < q := by
  unfold validateProduct at h
  by_cases h1 : (b.name.truthy && b.price.truthy) = true
  · rw [if_neg (by simp [h1])] at h
    by_cases h2 : (!b.price.isNum || b.price.le0) = true
    · rw [if_pos h2] at h; cases h
    · have h1' := h1
      simp only [Bool.and_eq_true] at h1'
      obtain ⟨hA, hB⟩ := h1'
      refine ⟨hA, ?_⟩
      cases hBp : b.price <;> rw [hBp] at h2 <;>
        simp [JVal.isNum, JVal.le0, not_le] at h2
      exact ⟨_, rfl, h2⟩
  · rw [if_pos (by simp [h1])] at h; cases h

lemma mkNew_price_pos {fid : String} {b : Body} (h : validateProduct b = none) :
    ∃ q : ℚ, (mkNew fid b).price = JVal.num q ∧ 0 < q :=
  (validateProduct_none h).2

lemma mkNew_populated {fid : String} {b : Body} (h : validateProduct b = none) :
    populated (mkNew fid b) := by
  obtain ⟨hn, q, hp, hq⟩ := validateProduct_none h
  refine ⟨truthy_ne_undef hn, ?_, ?_, ?_, ?_⟩
  · by_cases hdp : b.description.truthy = true
    · simpa [mkNew, hdp] using truthy_ne_undef hdp
    · simp [mkNew, hdp]
  · simp [mkNew, hp]
  · by_cases hcp : b.category.truthy = true
    · simpa [mkNew, hcp] using truthy_ne_undef hcp
    · simp [mkNew, hcp]
  · by_cases hip : b.inStock = JVal.undef
    · simp [mkNew, hip]
    · simp [mkNew, hip]

lemma updateMerge_price_pos {b : Body} {old : Product} (h : validateProduct b = none) :
    ∃ q : ℚ, (updateMerge b old).price = JVal.num q ∧ 0 < q :=
  (validateProduct_none h).2

lemma updateMerge_populated {b : Body} {old : Product} (h : validateProduct b = none)
    (hold : populated old) : populated (updateMerge b old) := by
  obtain ⟨hn, q, hp, hq⟩ := validateProduct_none h
  obtain ⟨_, hd2, _, hc2, hi2⟩ := hold
  refine ⟨truthy_ne_undef hn, ?_, ?_, ?_, ?_⟩
  · by_cases hdp : b.description.truthy = true
    · simpa [updateMerge, hdp] using truthy_ne_undef hdp
    · simpa [updateMerge, hdp] using hd2
  · simp [updateMerge, hp]
  · by_cases hcp : b.category.truthy = true
    · simpa [updateMerge, hcp] using truthy_ne_undef hcp
    · simpa [updateMerge, hcp] using hc2
  · by_cases hip : b.inStock = JVal.undef
    · simpa [updateMerge, hip] using hi2
    · simp [updateMerge, hip]

lemma updateFirst_ids {i : String} {b : Body} {s : List Product} {l : List Product}
    {q : Product} (h : updateFirst i b s = some (l, q)) :
    l.map Product.id = s.map Product.id := by
  induction s generalizing l q with
  | nil => simp [updateFirst] at h
  | cons p ps ih =>
    by_cases hp : p.id = i
    · simp [updateFirst, hp] at h
      obtain ⟨hl, hq⟩ := h
      subst hl
      simp [updateMerge]
    · cases hrec : updateFirst i b ps with
      | none => simp [updateFirst, hp, hrec] at h
      | some lq =>
        obtain ⟨l2, q2⟩ := lq
        simp [updateFirst, hp, hrec] at h
        obtain ⟨hl, hq⟩ := h
        subst hl
        simp [ih hrec]

lemma updateFirst_mem {i : String} {b : Body} {s : List Product} {l : List Product}
    {q : Product} (h : updateFirst i b s = some (l, q)) :
    ∀ x ∈ l, x ∈ s ∨ ∃ old, old ∈ s ∧ x = updateMerge b old := by
  induction s generalizing l q with
  | nil => simp [updateFirst] at h
  | cons p ps ih =>
    by_cases hp : p.id = i
    · simp [updateFirst, hp] at h
      obtain ⟨hl, hq⟩ := h
      subst hl
      intro x hx
      rcases List.mem_cons.mp hx with rfl | hx2
      · exact Or.inr ⟨p, List.mem_cons_self p ps, rfl⟩
      · exact Or.inl (List.mem_cons_of_mem p hx2)
    · cases hrec : updateFirst i b ps with
      | none => simp [updateFirst, hp, hrec] at h
      | some lq =>
        obtain ⟨l2, q2⟩ := lq
        simp [updateFirst, hp, hrec] at h
        obtain ⟨hl, hq⟩ := h
        subst hl
        intro x hx
        rcases List.mem_cons.mp hx with rfl | hx2
        · exact Or.inl (List.mem_cons_self x ps)
        · rcases ih hrec x hx2 with h1 | ⟨old, ho, he⟩
          · exact Or.inl (List.mem_cons_of_mem p h1)
          · exact Or.inr ⟨old, List.mem_cons_of_mem p ho, he⟩

/-- C1 (code_bug): the GET router sends `/api/products/stats` to the
`/api/products/:id` handler, because the `:id` route is registered at
line 127, before the `stats` route at line 181, and Express dispatches to
the first matching route. On the seed store the request therefore returns
404 `NotFoundError` (a lookup for the id "stats"), while the statistics
handler, had it been reachable, would have returned 200 with
`totalProducts: 2, inStock: 2, outOfStock: 0` and both seed categories
mapped to 1, exactly as the claim states. -/
theorem c1_stats_route_shadowed_by_id_route :
    (∀ (cat search : Option String) (pq lq : Option Int) (s : List Product),
        dispatchGet cat search pq lq s ["api", "products", "stats"] = getById "stats" s)
    ∧ dispatchGet none none none none products ["api", "products", "stats"]
        = ⟨404, .err "Product not found" "NotFoundError"⟩
    ∧ getStats products = ⟨200, .stats 2 [("Electronics", 1), ("Furniture", 1)] 2 0⟩ :=
  ⟨fun _ _ _ _ _ => rfl, by decide, by decide⟩

/-- C2 (counterexample): an update request on the existing id "1" that
supplies the empty string for `description` does not store the supplied
value: the stored record keeps the previous description, because the
update handler computes `description || old.description` and the empty
string is falsy. This refutes the claimed "including falsy supplied
values such as the empty string". -/
theorem c2_counterexample :
    (putProduct ctxGood "1"
        { name := .str "Laptop", price := .num 5, description := .str "" } products).2
      = ⟨200, .prod (Product.mk "1" (.str "Laptop") (.str "High-performance laptop")
          (.num 5) (.str "Electronics") (.bool true))⟩
    ∧ ({ name := .str "Laptop", price := .num 5, description := .str "" : Body }).description
        = JVal.str ""
    ∧ JVal.str "High-performance laptop" ≠ JVal.str "" := by decide

/-- C2 (amended): an update on an existing id with an authenticated
context and a valid body replaces the record in place, always
overwriting `name` and `price`; `description` and `category` take the
supplied value when it is truthy and otherwise keep the previous stored
value (so a supplied falsy value, such as the empty string, falls back
to the previous value); `inStock` takes the supplied value whenever the
field is present, including the value `false`, and keeps the previous
value only when the field is absent. Create, by contrast, fills an
omitted `description`, `category`, `inStock` with the fixed defaults
"" , "Uncategorized" and `true`. -/
theorem c2_amended_update_merge :
    (∀ (c : Ctx) (i : String) (b : Body) (pre : List Product) (old : Product)
        (post : List Product),
        authenticate c = true → validateProduct b = none →
        (∀ q ∈ pre, q.id ≠ i) → old.id = i →
        putProduct c i b (pre ++ old :: post)
          = (pre ++ updateMerge b old :: post, ⟨200, .prod (updateMerge b old)⟩))
    ∧ (∀ (b : Body) (old : Product),
        (updateMerge b old).name = b.name
        ∧ (updateMerge b old).price = b.price
        ∧ (updateMerge b old).description
            = (if b.description.truthy then b.description else old.description)
        ∧ (updateMerge b old).category
            = (if b.category.truthy then b.category else old.category)
        ∧ (updateMerge b old).inStock
            = (if b.inStock = JVal.undef then old.inStock else b.inStock)
        ∧ (updateMerge b old).id = old.id)
    ∧ (∀ (fid : String) (b : Body),
        (b.description = JVal.undef → (mkNew fid b).description = .str "")
        ∧ (b.category = JVal.undef → (mkNew fid b).category = .str "Uncategorized")
        ∧ (b.inStock = JVal.undef → (mkNew fid b).inStock = .bool true)) := by
  refine ⟨?_, fun b old => ⟨rfl, rfl, rfl, rfl, rfl, rfl⟩, fun fid b => ⟨?_, ?_, ?_⟩⟩
  · intro c i b pre old post ha hv hpre hold
    simp [putProduct, ha, hv, updateFirst_append i b pre old post hpre hold]
  · intro h; simp [mkNew, h, JVal.truthy]
  · intro h; simp [mkNew, h, JVal.truthy]
  · intro h; simp [mkNew, h]

/-- Witness for the amended C2 theorem: a concrete update on the seed
store through the full handler. -/
theorem c2_amended_witness :
    putProduct ctxGood "1" { name := JVal.str "X", price := JVal.num 7 } products
      = ([updateMerge { name := JVal.str "X", price := JVal.num 7 } seed1, seed2],
         ⟨200, .prod (updateMerge { name := JVal.str "X", price := JVal.num 7 } seed1)⟩) :=
  c2_amended_update_merge.1 ctxGood "1" { name := JVal.str "X", price := JVal.num 7 }
    [] seed1 [seed2] (by decide) (by decide) (by simp) (by decide)

/-- C3 (counterexample): an untyped fault — here the TypeError the list
handler raises when a stored description is not a string, which is none
of NotFoundError, ValidationError, UnauthorizedError — is translated
with status 500 but with type "TypeError", not "InternalServerError",
because the middleware uses the name carried by the fault whenever that
name is truthy. -/
theorem c3_counterexample :
    listProducts none (some "zzz") none none [badProduct]
      = ⟨500, .err "p.description.toLowerCase is not a function" "TypeError"⟩
    ∧ errorHandler (typeError "p.description.toLowerCase is not a function")
      = ⟨500, .err "p.description.toLowerCase is not a function" "TypeError"⟩
    ∧ "TypeError" ≠ "InternalServerError" := by decide

/-- C3 (amended): the central translator always produces the uniform
body `{error: {message, type}}` with the status carried by the failure,
defaulting to 500 when the failure carries no status; the `type` field is
the name carried by the failure whenever that name is a truthy string,
and "InternalServerError" only for faults with no (or an empty) name;
the three typed classes map to 404, 400 and 401 with their class names. -/
theorem c3_amended_translator :
    (∀ e : JsError, (errorHandler e).status = e.statusCode.getD 500
        ∧ (errorHandler e).body = .err e.message (errName e))
    ∧ (∀ e : JsError, e.name = none →
        (errorHandler e).body = .err e.message "InternalServerError")
    ∧ (∀ m : String, errorHandler ⟨none, m, none⟩ = ⟨500, .err m "InternalServerError"⟩)
    ∧ (∀ n m : String, n ≠ "" → errorHandler ⟨some n, m, none⟩ = ⟨500, .err m n⟩)
    ∧ (∀ m : String, errorHandler (notFoundError m) = ⟨404, .err m "NotFoundError"⟩)
    ∧ (∀ m : String, errorHandler (validationError m) = ⟨400, .err m "ValidationError"⟩)
    ∧ (∀ m : String, errorHandler (unauthorizedError m) = ⟨401, .err m "UnauthorizedError"⟩) := by
  refine ⟨fun e => ⟨rfl, rfl⟩, fun e he => ?_, fun m => rfl, fun n m hn => ?_,
    fun m => rfl, fun m => rfl, fun m => rfl⟩
  · simp [errorHandler, errName, he]
  · simp [errorHandler, errName, hn]

/-- Witness for the amended C3 theorem at concrete faults. -/
theorem c3_amended_witness :
    errorHandler ⟨none, "boom", none⟩ = ⟨500, .err "boom" "InternalServerError"⟩
    ∧ errorHandler ⟨some "TypeError", "boom", none⟩ = ⟨500, .err "boom" "TypeError"⟩ :=
  ⟨c3_amended_translator.2.2.1 "boom",
   c3_amended_translator.2.2.2.1 "TypeError" "boom" (by decide)⟩

/-- C4: a create or update body is rejected by `validateProduct` exactly
when the name is absent or falsy, or the price is absent or falsy (so a
price of 0 is rejected as missing), or the price is not of numeric type,
or the price is a number not strictly greater than zero; and a POST with
a valid name and price 0 on any authenticated context leaves the store
unchanged and returns 400. -/
theorem c4_validation_iff :
    (∀ b : Body, (validateProduct b).isSome = true ↔
        (b.name.truthy = false ∨ b.price.truthy = false
          ∨ b.price.isNum = false ∨ b.price.le0 = true))
    ∧ (∀ (c : Ctx) (fid : String) (s : List Product), authenticate c = true →
        postProduct c { name := .str "Widget", price := .num 0 } fid s
          = (s, ⟨400, .err "Name and price are required" "ValidationError"⟩)) := by
  constructor
  · intro b
    cases hA : b.name.truthy <;> cases hB : b.price.truthy <;>
      cases hC : b.price.isNum <;> cases hD : b.price.le0 <;>
        simp [validateProduct, hA, hB, hC, hD]
  · intro c fid s h
    simp only [postProduct, h]
    rfl

/-- Witness for C4 at the authenticated context. -/
theorem c4_witness :
    postProduct ctxGood { name := .str "Widget", price := .num 0 } "f" products
      = (products, ⟨400, .err "Name and price are required" "ValidationError"⟩) :=
  c4_validation_iff.2 ctxGood "f" products (by decide)

/-- C5: on any list request whose filtering step succeeds with the
filtered sequence r, the response is 200 with total = length of r,
totalPages = the integer the code computes for `Math.ceil(total/limit)`
(equal to the rational ceiling of total/limit whenever the limit is
positive), and data = the slice of r from (page-1)*limit to page*limit;
page and limit fall back to 1 and 10 when their query values are
non-numeric; an out-of-range page yields an empty slice and no error;
and `limit=1&page=2` on the seed store returns exactly the second seed
record with total 2 and totalPages 2. -/
theorem c5_pagination :
    (∀ (cat search : Option String) (pq lq : Option Int) (s r : List Product),
        filterStep cat search s = .ok r →
        listProducts cat search pq lq s
          = ⟨200, .listing r.length (jsOrInt pq 1)
              (jsCeilDiv r.length (jsOrInt lq 10))
              (jsSlice r ((jsOrInt pq 1 - 1) * jsOrInt lq 10)
                (jsOrInt pq 1 * jsOrInt lq 10))⟩)
    ∧ (∀ (len : ℕ) (limit : ℤ), 0 < limit →
        jsCeilDiv len limit = ⌈(len : ℚ) / (limit : ℚ)⌉)
    ∧ (jsOrInt none 1 = 1 ∧ jsOrInt none 10 = 10)
    ∧ (∀ (r : List Product) (page limit : ℤ), 0 < limit →
        jsCeilDiv r.length limit < page →
        jsSlice r ((page - 1) * limit) (page * limit) = [])
    ∧ listProducts none none (some 2) (some 1) products
        = ⟨200, .listing 2 2 2 [seed2]⟩ := by
  refine ⟨?_, jsCeilDiv_eq_ceil, ⟨rfl, rfl⟩, ?_, by decide⟩
  · intro cat search pq lq s r h
    simp only [listProducts, h]
  · intro r page limit hl hp
    apply jsSlice_eq_nil
    have h1 : (r.length : ℤ) ≤ jsCeilDiv r.length limit * limit :=
      len_le_ceilDiv_mul _ _ hl
    have h2 : jsCeilDiv r.length limit * limit ≤ (page - 1) * limit := by
      apply mul_le_mul_of_nonneg_right _ hl.le
      omega
    omega

/-- Witness for C5: the general pagination equation at a concrete
request, the ceiling equation at 2/1, and an out-of-range page on the
seed store. -/
theorem c5_witness :
    listProducts none none (some 2) (some 1) products = ⟨200, .listing 2 2 2 [seed2]⟩
    ∧ jsCeilDiv 2 1 = ⌈((2 : ℕ) : ℚ) / ((1 : ℤ) : ℚ)⌉
    ∧ jsSlice products ((3 - 1) * 1) (3 * 1) = [] :=
  ⟨(c5_pagination.1 none none (some 2) (some 1) products products rfl).trans (by decide),
   c5_pagination.2.1 2 1 (by decide),
   c5_pagination.2.2.2.1 products 3 1 (by decide) (by decide)⟩

/-- C6: a create, update or delete request that fails authentication
returns 401 with the store unchanged, and a create or update request
that passes authentication but fails validation returns 400 with the
store unchanged: authentication and validation run strictly before any
mutation. -/
theorem c6_no_mutation_on_failure :
    ∀ (c : Ctx) (b : Body) (fid i : String) (s : List Product),
      (authenticate c = false →
        postProduct c b fid s = (s, ⟨401, .err "Invalid API key" "UnauthorizedError"⟩)
        ∧ putProduct c i b s = (s, ⟨401, .err "Invalid API key" "UnauthorizedError"⟩)
        ∧ deleteProduct c i s = (s, ⟨401, .err "Invalid API key" "UnauthorizedError"⟩))
      ∧ (∀ m : String, authenticate c = true → validateProduct b = some m →
        postProduct c b fid s = (s, ⟨400, .err m "ValidationError"⟩)
        ∧ putProduct c i b s = (s, ⟨400, .err m "ValidationError"⟩)) := by
  intro c b fid i s
  constructor
  · intro ha
    refine ⟨?_, ?_, ?_⟩ <;> simp [postProduct, putProduct, deleteProduct, ha] <;> rfl
  · intro m ha hv
    constructor <;>
      simp [postProduct, putProduct, ha, hv, errorHandler, errName, validationError]

/-- Witness for C6: a missing header and a price of 0 on the seed
store. -/
theorem c6_witness :
    postProduct ⟨none, some "secret"⟩ { name := JVal.str "x", price := JVal.num 1 } "f" products
      = (products, ⟨401, .err "Invalid API key" "UnauthorizedError"⟩)
    ∧ postProduct ctxGood { name := JVal.str "x", price := JVal.num 0 } "f" products
      = (products, ⟨400, .err "Name and price are required" "ValidationError"⟩) :=
  ⟨((c6_no_mutation_on_failure ⟨none, some "secret"⟩
      { name := JVal.str "x", price := JVal.num 1 } "f" "1" products).1 (by decide)).1,
   ((c6_no_mutation_on_failure ctxGood
      { name := JVal.str "x", price := JVal.num 0 } "f" "1" products).2
      "Name and price are required" (by decide) (by decide)).1⟩

/-- C7: every store state reachable from the seed store through any
sequence of create, update and delete requests (with fresh ids assumed
not to collide) keeps all record ids pairwise distinct, every stored
price a strictly positive number, and every record fully populated. -/
theorem c7_invariants : ∀ s, Reach s → StoreInv s := by
  intro s h
  induction h with
  | seed =>
    refine ⟨by decide, ?_⟩
    intro p hp
    simp [products] at hp
    rcases hp with rfl | rfl
    · exact ⟨⟨Rat.mk' 99999 100, rfl, by decide⟩, by unfold populated; decide⟩
    · exact ⟨⟨Rat.mk' 19999 100, rfl, by decide⟩, by unfold populated; decide⟩
  | create c b fid st hr hfresh ih =>
    by_cases ha : authenticate c = false
    · simpa [postProduct, ha] using ih
    · have ha' : authenticate c = true := by revert ha; cases authenticate c <;> simp
      cases hv : validateProduct b with
      | some m => simpa [postProduct, ha', hv] using ih
      | none =>
        have hgoal : (postProduct c b fid st).1 = st ++ [mkNew fid b] := by
          simp [postProduct, ha', hv]
        rw [hgoal]
        obtain ⟨hnd, hmem⟩ := ih
        constructor
        · rw [List.map_append, List.nodup_append]
          refine ⟨hnd, List.nodup_singleton _, ?_⟩
          intro x hx hx2
          simp [mkNew] at hx2
          obtain ⟨p, hp, hid⟩ := List.mem_map.mp hx
          exact hfresh p hp (by rw [hid, hx2])
        · intro p hp
          rcases List.mem_append.mp hp with hp1 | hp2
          · exact hmem p hp1
          · simp at hp2
            subst hp2
            exact ⟨mkNew_price_pos hv, mkNew_populated hv⟩
  | update c i b st hr ih =>
    by_cases ha : authenticate c = false
    · simpa [putProduct, ha] using ih
    · have ha' : authenticate c = true := by revert ha; cases authenticate c <;> simp
      cases hv : validateProduct b with
      | some m => simpa [putProduct, ha', hv] using ih
      | none =>
        cases hu : updateFirst i b st with
        | none => simpa [putProduct, ha', hv, hu] using ih
        | some lq =>
          obtain ⟨l, q⟩ := lq
          have hgoal : (putProduct c i b st).1 = l := by simp [putProduct, ha', hv, hu]
          rw [hgoal]
          obtain ⟨hnd, hmem⟩ := ih
          refine ⟨by rw [updateFirst_ids hu]; exact hnd, ?_⟩
          intro p hp
          rcases updateFirst_mem hu p hp with hold | ⟨old, holdmem, rfl⟩
          · exact hmem p hold
          · exact ⟨updateMerge_price_pos hv, updateMerge_populated hv (hmem old holdmem).2⟩
  | remove c i st hr ih =>
    by_cases ha : authenticate c = false
    · simpa [deleteProduct, ha] using ih
    · have ha' : authenticate c = true := by revert ha; cases authenticate c <;> simp
      by_cases hf : (List.find? (fun p => p.id == i) st).isSome = false
      · simpa [deleteProduct, ha', hf] using ih
      · have hgoal : (deleteProduct c i st).1 = List.filter (fun p => !(p.id == i)) st := by
          simp [deleteProduct, ha', hf]
        rw [hgoal]
        obtain ⟨hnd, hmem⟩ := ih
        refine ⟨?_, fun p hp => hmem p (List.mem_of_mem_filter hp)⟩
        exact List.Nodup.sublist (List.Sublist.map _ (List.filter_sublist _)) hnd

/-- Witness for C7 at the seed store. -/
theorem c7_witness : StoreInv products := c7_invariants products Reach.seed

/-- C8: when every stored name and description is a string and the
supplied query values are non-empty, the filtering step succeeds and a
record is in the filtered sequence exactly when it is in the snapshot,
its category equals a supplied category value exactly (case-sensitive
strict equality), and the lower-cased search term occurs as a substring
of its lower-cased name or of its lower-cased description; with both
parameters supplied both conditions must hold. -/
theorem c8_filter_semantics :
    ∀ (cat search : Option String) (s : List Product) (p : Product),
      (∀ q ∈ s, q.name.isStr = true ∧ q.description.isStr = true) →
      (∀ c, cat = some c → c ≠ "") →
      (∀ t, search = some t → t ≠ "") →
      ∃ r, filterStep cat search s = .ok r ∧
        (p ∈ r ↔ p ∈ s
          ∧ (∀ c, cat = some c → p.category = JVal.str c)
          ∧ (∀ t, search = some t →
              ∃ n d, p.name = JVal.str n ∧ p.description = JVal.str d
                ∧ (jsIncludes (lowerStr n) (lowerStr t) = true
                   ∨ jsIncludes (lowerStr d) (lowerStr t) = true))) := by
  intro cat search s p hstr hc hs
  cases cat with
  | none =>
    cases search with
    | none =>
      refine ⟨s, rfl, ?_⟩
      simp
    | some t =>
      have ht : t ≠ "" := hs t rfl
      refine ⟨s.filter (searchHit (lowerStr t)), ?_, ?_⟩
      · simp [filterStep, ht, filterSearch_of_str (lowerStr t) s hstr]
      · rw [mem_filter_searchHit hstr]
        simp
  | some c =>
    have hcc : c ≠ "" := hc c rfl
    have hstr1 : ∀ q ∈ s.filter (fun q => q.category == JVal.str c),
        q.name.isStr = true ∧ q.description.isStr = true :=
      fun q hq => hstr q (List.mem_of_mem_filter hq)
    cases search with
    | none =>
      refine ⟨s.filter (fun q => q.category == JVal.str c), ?_, ?_⟩
      · simp [filterStep, hcc]
      · rw [mem_filter_category]
        simp
    | some t =>
      have ht : t ≠ "" := hs t rfl
      refine ⟨(s.filter (fun q => q.category == JVal.str c)).filter (searchHit (lowerStr t)),
        ?_, ?_⟩
      · simp [filterStep, hcc, ht,
          filterSearch_of_str (lowerStr t) _ hstr1]
      · rw [mem_filter_searchHit hstr1, mem_filter_category]
        simp
        aesop

/-- Witness for C8: category "Electronics" and search "lap" on the seed
store, instantiated at the first seed record. -/
theorem c8_witness :
    ∃ r, filterStep (some "Electronics") (some "lap") products = .ok r ∧
      (seed1 ∈ r ↔ seed1 ∈ products
        ∧ (∀ c, (some "Electronics" : Option String) = some c → seed1.category = JVal.str c)
        ∧ (∀ t, (some "lap" : Option String) = some t →
            ∃ n d, seed1.name = JVal.str n ∧ seed1.description = JVal.str d
              ∧ (jsIncludes (lowerStr n) (lowerStr t) = true
                 ∨ jsIncludes (lowerStr d) (lowerStr t) = true))) :=
  c8_filter_semantics (some "Electronics") (some "lap") products seed1
    (by decide) (by decide) (by decide)

/-- C9: when the configured API_KEY is absent, `authenticate` rejects
every request whatever the header carries (a string is never strictly
equal to `undefined`), so every create, update and delete request
returns 401 and leaves the store unchanged. -/
theorem c9_unset_secret_locks_out :
    ∀ (h : Option String) (b : Body) (fid i : String) (s : List Product),
      authenticate ⟨h, none⟩ = false
      ∧ postProduct ⟨h, none⟩ b fid s
          = (s, ⟨401, .err "Invalid API key" "UnauthorizedError"⟩)
      ∧ putProduct ⟨h, none⟩ i b s
          = (s, ⟨401, .err "Invalid API key" "UnauthorizedError"⟩)
      ∧ deleteProduct ⟨h, none⟩ i s
          = (s, ⟨401, .err "Invalid API key" "UnauthorizedError"⟩) := by
  intro h b fid i s
  have ha : authenticate ⟨h, none⟩ = false := by
    cases h with
    | none => rfl
    | some k => by_cases hk : k = "" <;> simp [authenticate, hk]
  exact ⟨ha, by simp only [postProduct, ha]; rfl, by simp only [putProduct, ha]; rfl,
    by simp only [deleteProduct, ha]; rfl⟩

/-- C10 (counterexample): validation accepts a body whose description is
the number 123 and create stores it unchanged, but a subsequent list
request with a search parameter whose term matches the record name does
NOT fault: the disjunction short-circuits before lower-casing the
description, and the request returns 200. This refutes the claimed
"every list request that supplies a search parameter faults". -/
theorem c10_counterexample :
    validateProduct badBody = none
    ∧ badProduct.description = JVal.num 123
    ∧ badProduct.description.isStr = false
    ∧ listProducts none (some "Widg") none none [badProduct]
        = ⟨200, .listing 1 1 1 [badProduct]⟩
    ∧ (200 : Nat) ≠ 500 := by decide

/-- C10 (amended): validation ignores the description entirely and
create stores a truthy non-string description unchanged; a list request
with a search parameter faults with a 500 TypeError whenever evaluation
reaches the non-string description, that is, whenever the lower-cased
term is not a substring of the lower-cased record name; and on stores in
which every name and description is a string the search filter never
faults. -/
theorem c10_amended_search_faults :
    (∀ (b : Body) (v : JVal), validateProduct { b with description := v } = validateProduct b)
    ∧ (∀ (fid : String) (b : Body), b.description.truthy = true →
        (mkNew fid b).description = b.description)
    ∧ (∀ t : String, t ≠ "" →
        jsIncludes (lowerStr "Widget") (lowerStr t) = false →
        listProducts none (some t) none none [badProduct]
          = ⟨500, .err "p.description.toLowerCase is not a function" "TypeError"⟩)
    ∧ (∀ (t : String) (s : List Product),
        (∀ p ∈ s, p.name.isStr = true ∧ p.description.isStr = true) →
        ∃ r, filterSearch t s = .ok r) := by
  refine ⟨fun b v => rfl, fun fid b h => by simp [mkNew, h], ?_,
    fun t s h => ⟨_, filterSearch_of_str t s h⟩⟩
  intro t ht hinc
  have hb : badProduct = Product.mk "b1" (.str "Widget") (.num 123) (.num 5)
      (.str "Uncategorized") (.bool true) := by decide
  simp [listProducts, filterStep, ht, hb, filterSearch, searchMatch, hinc,
    errorHandler, errName, typeError, Bind.bind, Except.bind, Pure.pure, Except.pure]

/-- Witness for the amended C10 theorem: a non-matching term on the bad
store, the stored numeric description, and a fault-free search on the
all-string seed store. -/
theorem c10_amended_witness :
    listProducts none (some "zzz") none none [badProduct]
      = ⟨500, .err "p.description.toLowerCase is not a function" "TypeError"⟩
    ∧ (mkNew "b1" badBody).description = badBody.description
    ∧ ∃ r, filterSearch "x" products = .ok r :=
  ⟨c10_amended_search_faults.2.2.1 "zzz" (by decide) (by decide),
   c10_amended_search_faults.2.1 "b1" badBody (by decide),
   c10_amended_search_faults.2.2.2 "x" products (by decide)⟩
